import Mathlib

/-!
# Verification of the spandsp V.17 modem transmitter (`src/libs/spandsp/src/v17tx.c`)

This file is a shallow embedding of the transmit-side state machine of the
V.17 modem: the scrambler, the training-sequence generator, the differential
plus convolutional (trellis) encoder, the per-baud symbol source (`getbaud`),
the sample-production loop (`v17_tx`), and the lifecycle entry points
(`v17_tx_restart`, `v17_tx_init`), together with theorems about the claims
of the specification.

Modelling conventions:

* Machine integers are modelled as `Nat` with explicit truncation (`% 2 ^ 32`)
  where the C code relies on fixed-width wraparound.
* The caller-supplied bit source (`get_bit` callback) is modelled as a stream
  `g : Nat → BitResult` together with a cursor `bit_index` in the state that
  counts how many times the callback has been invoked.  The internal fallback
  `fake_get_bit` (which always returns 1) is selected by the
  `current_get_bit_fake` flag.
* The status handler callback is modelled as an event log `events` to which a
  notification is appended at exactly the program points where the C code
  invokes `s->status_handler`.
* The constellation tables (`v17tx_constellation_maps.h`) are not part of the
  sources; their entries are therefore represented symbolically: a produced
  baud is either the explicit zero point (`Baud.zero`, the literal
  `complex_setf(0.0f, 0.0f)` of the source), an entry of the ABCD training
  table (`Baud.abcd i`), or an entry `i` of the selected per-bit-rate data
  table (`Baud.pt table i`).
* Floating-point sample synthesis (pulse shaping, carrier multiply, gain) is
  outside the integer state machine; the per-sample *state* evolution,
  including the ring-buffer writes, is modelled exactly.  The gain formula of
  `v17_tx_power` is modelled separately over `ℝ`.
-/

/-! ## Training segment boundaries (lines 75-97 of the source) -/

/-- Start of the optional TEP tone, in symbols. -/
def V17_TRAINING_SEG_TEP_A : Nat := 0

/-- Mid point of the optional TEP, in symbols. -/
def V17_TRAINING_SEG_TEP_B : Nat := V17_TRAINING_SEG_TEP_A + 480

/-- Start of training segment 1, in symbols. -/
def V17_TRAINING_SEG_1 : Nat := V17_TRAINING_SEG_TEP_B + 48

/-- Start of training segment 2, in symbols. -/
def V17_TRAINING_SEG_2 : Nat := V17_TRAINING_SEG_1 + 256

/-- Start of training segment 3, in symbols. -/
def V17_TRAINING_SEG_3 : Nat := V17_TRAINING_SEG_2 + 2976

/-- Start of training segment 4, in symbols. -/
def V17_TRAINING_SEG_4 : Nat := V17_TRAINING_SEG_3 + 64

/-- Start of training segment 4 in short training mode, in symbols. -/
def V17_TRAINING_SHORT_SEG_4 : Nat := V17_TRAINING_SEG_2 + 38

/-- End of the training, in symbols. -/
def V17_TRAINING_END : Nat := V17_TRAINING_SEG_4 + 48

/-- End of the all-ones part of the shutdown sequence, in symbols. -/
def V17_TRAINING_SHUTDOWN_A : Nat := V17_TRAINING_END + 32

/-- End of the shutdown sequence, in symbols. -/
def V17_TRAINING_SHUTDOWN_END : Nat := V17_TRAINING_SHUTDOWN_A + 48

/-- The 16 bit pattern used in the bridge section of the training sequence. -/
def V17_BRIDGE_WORD : Nat := 0x8880

/-- Modelled from the spec: the pulse-shaping filter span
(`V17_TX_FILTER_STEPS`) is declared in `spandsp/v17tx.h`, a header that is not
among the sources; the spec only fixes that it is a constant filter span.  The
development uses 9; no claim below depends on the particular value. -/
def V17_TX_FILTER_STEPS : Nat := 9

/-- Modelled from the spec: the carrier phase-rate constant produced by
`dds_phase_ratef(1800.0)` (the dds component is not among the sources).  The
spec fixes only that it is a per-sample phase increment derived once from the
nominal 1800 Hz carrier at the 8000 Hz sample rate, accumulated in a 32-bit
phase register. -/
def CARRIER_PHASE_RATE : Nat := 1800 * 2 ^ 32 / 8000

/-! ## Data model -/

/-- Result of one invocation of a bit-source callback: a data bit, or the
out-of-band `SIG_STATUS_END_OF_DATA` sentinel. -/
inductive BitResult
  | bit (b : Nat)
  | endOfData
deriving DecidableEq

/-- A status-handler notification (`SIG_STATUS_END_OF_DATA` or
`SIG_STATUS_SHUTDOWN_COMPLETE` reported to `s->status_handler`). -/
inductive Event
  | endOfData
  | shutdownComplete
deriving DecidableEq

/-- Which of the four static data constellation tables is selected. -/
inductive ConstTable
  | c7200
  | c9600
  | c12000
  | c14400
deriving DecidableEq

/-- One complex baseband symbol, represented symbolically: the explicit zero
point, an entry of the ABCD training constellation, or entry `i` of the
selected data constellation table. -/
inductive Baud
  | zero
  | abcd (i : Nat)
  | pt (t : ConstTable) (i : Nat)
deriving DecidableEq

/-- The transmitter state (`v17_tx_state_t`), restricted to the fields the
integer state machine reads or writes.  The float `gain` and the logging
state are not part of the machine modelled here. -/
structure V17TxState where
  bit_rate : Nat
  bits_per_symbol : Nat
  constellation : ConstTable
  diff : Nat
  convolution : Nat
  scramble_reg : Nat
  in_training : Bool
  short_train : Bool
  training_step : Nat
  constellation_state : Nat
  baud_phase : Nat
  rrc_filter : List Baud
  rrc_filter_step : Nat
  carrier_phase : Nat
  carrier_phase_rate : Nat
  current_get_bit_fake : Bool
  bit_index : Nat
  events : List Event
deriving DecidableEq

/-! ## Scrambler (lines 99-106) -/

/-- The self-synchronising scrambler.  `out = (in ^ (reg >> 17) ^ (reg >> 22)) & 1`;
the register shifts left by one and takes `out` at bit 0.  The register field
is a C `unsigned int` (the spec describes it as a 24-bit-or-wider shift
register); it is truncated at 32 bits here. -/
def scramble (s : V17TxState) (in_bit : Nat) : Nat × V17TxState :=
  let out_bit := (in_bit ^^^ (s.scramble_reg >>> 17) ^^^ (s.scramble_reg >>> 22)) &&& 1
  (out_bit, { s with scramble_reg := ((s.scramble_reg <<< 1) ||| out_bit) % 2 ^ 32 })

/-- Feed a list of input bits through the scrambler, collecting the output
bits in order. -/
def scrambleRun (s : V17TxState) : List Nat → List Nat × V17TxState
  | [] => ([], s)
  | b :: rest =>
    let (o, s1) := scramble s b
    let (l, s2) := scrambleRun s1 rest
    (o :: l, s2)

/-! ## Training sequence generator (lines 110-167) -/

/-- The `cdba_to_abcd` table of `training_get`. -/
def cdba_to_abcd : List Nat := [2, 3, 1, 0]

/-- The `dibit_to_step` table of `training_get`. -/
def dibit_to_step : List Nat := [1, 0, 2, 3]

/-- `training_get`: produce one symbol of the training sequence, advancing
`training_step` first (the C code pre-increments). -/
def training_get (s : V17TxState) : Baud × V17TxState :=
  let s := { s with training_step := s.training_step + 1 }
  if s.training_step ≤ V17_TRAINING_SEG_3 then
    if s.training_step ≤ V17_TRAINING_SEG_2 then
      if s.training_step ≤ V17_TRAINING_SEG_TEP_B then
        (Baud.abcd 0, s)
      else if s.training_step ≤ V17_TRAINING_SEG_1 then
        (Baud.zero, s)
      else
        (Baud.abcd ((s.training_step &&& 1) ^^^ 1), s)
    else
      let (b1, s) := scramble s 1
      let (b0, s) := scramble s 1
      let bits := (b1 <<< 1) ||| b0
      let s := { s with constellation_state := cdba_to_abcd.getD bits 0 }
      let s := if s.short_train && s.training_step == V17_TRAINING_SHORT_SEG_4 then
                 { s with training_step := V17_TRAINING_SEG_4 }
               else s
      (Baud.abcd s.constellation_state, s)
  else
    let shift := ((s.training_step - V17_TRAINING_SEG_3 - 1) &&& 0x7) <<< 1
    let (b1, s) := scramble s (V17_BRIDGE_WORD >>> shift)
    let (b0, s) := scramble s (V17_BRIDGE_WORD >>> (shift + 1))
    let bits := (b1 <<< 1) ||| b0
    let s := { s with constellation_state := (s.constellation_state + dibit_to_step.getD bits 0) &&& 3 }
    (Baud.abcd s.constellation_state, s)

/-! ## Trellis encoder (lines 170-191) -/

/-- The fixed 16-entry differential permutation table `diff_code`. -/
def diff_code : List Nat := [0, 1, 2, 3, 1, 2, 3, 0, 2, 3, 0, 1, 3, 0, 1, 2]

/-- The pure arithmetic core of `diff_and_convolutional_encode`: given the
previous differential state, the previous convolution register and the
incoming value `q`, return the new differential state, the new convolution
register and the produced symbol index, with exactly the bit operations of
the source. -/
def encodeNum (diff conv q : Nat) : Nat × Nat × Nat :=
  let d := diff_code.getD (((q &&& 0x03) <<< 2) ||| diff) 0
  let y2 := d >>> 1
  let y1 := d
  let this2 := y2 ^^^ y1 ^^^ (conv >>> 2) ^^^ ((y2 ^^^ (conv >>> 1)) &&& conv)
  let this1 := y2 ^^^ (conv >>> 1) ^^^ (y1 &&& conv)
  let conv2 := ((conv &&& 1) <<< 2) ||| ((this2 &&& 1) <<< 1) ||| (this1 &&& 1)
  (d, conv2, ((q <<< 1) &&& 0x78) ||| (d <<< 1) ||| ((conv2 >>> 2) &&& 1))

/-- `diff_and_convolutional_encode` acting on the transmitter state. -/
def diff_and_convolutional_encode (s : V17TxState) (q : Nat) : Nat × V17TxState :=
  let r := encodeNum s.diff s.convolution q
  (r.2.2, { s with diff := r.1, convolution := r.2.1 })

/-! ## Symbol source (`getbaud`, lines 194-260) -/

/-- One invocation of the active bit source: either the internal
`fake_get_bit` (which returns 1 and consults no external state) or the
caller-supplied stream `g`, advancing the invocation cursor. -/
def getCurrentBit (g : Nat → BitResult) (s : V17TxState) : BitResult × V17TxState :=
  if s.current_get_bit_fake then (BitResult.bit 1, s)
  else (g s.bit_index, { s with bit_index := s.bit_index + 1 })

/-- The per-symbol bit-gathering loop of `getbaud` (lines 244-258): fetch `n`
bits one at a time; on the end-of-data sentinel, notify the status sink,
switch to the fake source, re-enter training and use 1 for the bit; scramble
each bit and accumulate it at position `i`. -/
def dataBitsLoop (g : Nat → BitResult) : Nat → Nat → Nat → V17TxState → Nat × V17TxState
  | 0, _, bits, s => (bits, s)
  | n + 1, i, bits, s =>
    let (r, s1) := getCurrentBit g s
    let (bit, s2) :=
      match r with
      | BitResult.endOfData =>
        (1, { s1 with events := s1.events ++ [Event.endOfData],
                      current_get_bit_fake := true,
                      in_training := true })
      | BitResult.bit b => (b, s1)
    let (ob, s3) := scramble s2 bit
    dataBitsLoop g n (i + 1) (bits ||| (ob <<< i)) s3

/-- The data path of `getbaud`: gather `bits_per_symbol` scrambled bits, run
the trellis encoder, and emit the indexed point of the selected data
constellation table. -/
def getbaudData (g : Nat → BitResult) (s : V17TxState) : Baud × V17TxState :=
  let (bits, s1) := dataBitsLoop g s.bits_per_symbol 0 0 s
  let (idx, s2) := diff_and_convolutional_encode s1 bits
  (Baud.pt s2.constellation idx, s2)

/-- `getbaud`: produce one symbol, following the training / shutdown / data
decision structure of the source (lines 210-259), including the placement of
the `SIG_STATUS_SHUTDOWN_COMPLETE` check after the silence early-return. -/
def getbaud (g : Nat → BitResult) (s : V17TxState) : Baud × V17TxState :=
  if s.in_training then
    if s.training_step ≤ V17_TRAINING_END then
      if s.training_step < V17_TRAINING_SEG_4 then
        training_get s
      else
        let s1 := { s with training_step := s.training_step + 1 }
        let s2 := if V17_TRAINING_END < s1.training_step then
                    { s1 with current_get_bit_fake := false, in_training := false }
                  else s1
        getbaudData g s2
    else
      let s1 := { s with training_step := s.training_step + 1 }
      if V17_TRAINING_SHUTDOWN_A < s1.training_step then
        (Baud.zero, s1)
      else
        let s2 := if s1.training_step = V17_TRAINING_SHUTDOWN_END then
                    { s1 with events := s1.events ++ [Event.shutdownComplete] }
                  else s1
        getbaudData g s2
  else
    getbaudData g s

/-- Iterate `getbaud` `n` times, collecting the emitted symbols in order. -/
def getbaudSeq (g : Nat → BitResult) : Nat → V17TxState → List Baud × V17TxState
  | 0, s => ([], s)
  | n + 1, s =>
    let (b, s1) := getbaud g s
    let (l, s2) := getbaudSeq g n s1
    (b :: l, s2)

/-! ## Sample production (`v17_tx`, lines 263-319) -/

/-- The state effect of producing one output sample: advance the 10:3 baud
phase accumulator, pull a new baud into both halves of the duplicated
pulse-shaping ring buffer when the accumulator carries, and advance the
carrier phase. -/
def v17_tx_sample (g : Nat → BitResult) (s : V17TxState) : V17TxState :=
  let s :=
    if 10 ≤ s.baud_phase + 3 then
      let s1 := { s with baud_phase := s.baud_phase + 3 - 10 }
      let (b, s2) := getbaud g s1
      let s3 := { s2 with rrc_filter :=
        (s2.rrc_filter.set s2.rrc_filter_step b).set (s2.rrc_filter_step + V17_TX_FILTER_STEPS) b }
      if V17_TX_FILTER_STEPS ≤ s3.rrc_filter_step + 1 then
        { s3 with rrc_filter_step := 0 }
      else
        { s3 with rrc_filter_step := s3.rrc_filter_step + 1 }
    else { s with baud_phase := s.baud_phase + 3 }
  { s with carrier_phase := (s.carrier_phase + s.carrier_phase_rate) % 2 ^ 32 }

/-- The sample loop of `v17_tx`, run for `len` samples. -/
def v17_tx_loop (g : Nat → BitResult) : Nat → V17TxState → V17TxState
  | 0, s => s
  | n + 1, s => v17_tx_loop g n (v17_tx_sample g s)

/-- `v17_tx`: the top-level produce call.  If the shutdown sequence has been
sent (`training_step >= V17_TRAINING_SHUTDOWN_END` at entry) it returns 0 and
leaves the state untouched; otherwise it runs the sample loop exactly `len`
times and reports `len` samples written. -/
def v17_tx (g : Nat → BitResult) (s : V17TxState) (len : Nat) : Nat × V17TxState :=
  if V17_TRAINING_SHUTDOWN_END ≤ s.training_step then (0, s)
  else (len, v17_tx_loop g len s)

/-! ## Lifecycle (`v17_tx_restart` lines 356-398, `v17_tx_init` lines 401-427) -/

/-- The common tail of `v17_tx_restart` after the bit-rate switch has set
`bits_per_symbol` and the constellation table (lines 379-397). -/
def restartCommon (s : V17TxState) (bit_rate : Nat) (tep short_train : Bool) : V17TxState :=
  { s with
    diff := if short_train then 0 else 1,
    bit_rate := bit_rate,
    rrc_filter := List.replicate (2 * V17_TX_FILTER_STEPS) Baud.zero,
    rrc_filter_step := 0,
    convolution := 0,
    scramble_reg := 0x2ECDD5,
    in_training := true,
    short_train := short_train,
    training_step := if tep then V17_TRAINING_SEG_TEP_A else V17_TRAINING_SEG_1,
    carrier_phase := 0,
    baud_phase := 0,
    constellation_state := 0,
    current_get_bit_fake := true }

/-- `v17_tx_restart`: validates the bit rate, then reinitialises the state.
Returns the C result code (0 on success, -1 on an unsupported bit rate, in
which case no field is assigned). -/
def v17_tx_restart (s : V17TxState) (bit_rate : Nat) (tep short_train : Bool) :
    Int × V17TxState :=
  match bit_rate with
  | 14400 => (0, restartCommon { s with bits_per_symbol := 6, constellation := ConstTable.c14400 } 14400 tep short_train)
  | 12000 => (0, restartCommon { s with bits_per_symbol := 5, constellation := ConstTable.c12000 } 12000 tep short_train)
  | 9600 => (0, restartCommon { s with bits_per_symbol := 4, constellation := ConstTable.c9600 } 9600 tep short_train)
  | 7200 => (0, restartCommon { s with bits_per_symbol := 3, constellation := ConstTable.c7200 } 7200 tep short_train)
  | _ => (-1, s)

/-- The zero-filled state built by `v17_tx_init` before it delegates to
`v17_tx_restart` (`memset(s, 0, sizeof(*s))`, then the carrier phase rate is
set; the constellation pointer is null at this point, rendered here by an
arbitrary placeholder that a successful restart always overwrites). -/
def initZeroState : V17TxState :=
  { bit_rate := 0
    bits_per_symbol := 0
    constellation := ConstTable.c7200
    diff := 0
    convolution := 0
    scramble_reg := 0
    in_training := false
    short_train := false
    training_step := 0
    constellation_state := 0
    baud_phase := 0
    rrc_filter := List.replicate (2 * V17_TX_FILTER_STEPS) Baud.zero
    rrc_filter_step := 0
    carrier_phase := 0
    carrier_phase_rate := CARRIER_PHASE_RATE
    current_get_bit_fake := true
    bit_index := 0
    events := [] }

/-- `v17_tx_init`: validates the bit rate; on failure no instance is
produced; on success the instance is the zero state after a restart with the
requested rate and tone flag (short training off). -/
def v17_tx_init (bit_rate : Nat) (tep : Bool) : Option V17TxState :=
  match bit_rate with
  | 14400 | 12000 | 9600 | 7200 =>
    some (v17_tx_restart initZeroState bit_rate tep false).2
  | _ => none

/-! ## Gain controller (`v17_tx_power`, lines 322-331) -/

/-- Modelled from the spec: the gain formula of `v17_tx_power` (line 329),
`0.223 * 10^((power - DBM0_MAX_POWER)/20) * 32768 / TX_PULSESHAPER_GAIN`,
with the two constants `DBM0_MAX_POWER` and `TX_PULSESHAPER_GAIN` taken as
parameters because the headers defining them are not among the sources, and
with the `float` arithmetic idealised over `ℝ`. -/
noncomputable def v17_tx_power_gain (maxPower txGain power : ℝ) : ℝ :=
  0.223 * (10 : ℝ) ^ ((power - maxPower) / 20) * 32768 / txGain

/-! ## Concrete states used by witnesses and counterexamples -/

/-- A concrete data-phase state: training completed (`training_step` rests at
`V17_TRAINING_END + 1`), caller-supplied source active. -/
def sData : V17TxState :=
  { bit_rate := 7200, bits_per_symbol := 3, constellation := ConstTable.c7200,
    diff := 1, convolution := 0, scramble_reg := 0x2ECDD5, in_training := false,
    short_train := false, training_step := V17_TRAINING_END + 1,
    constellation_state := 0, baud_phase := 0,
    rrc_filter := List.replicate (2 * V17_TX_FILTER_STEPS) Baud.zero,
    rrc_filter_step := 0, carrier_phase := 0, carrier_phase_rate := CARRIER_PHASE_RATE,
    current_get_bit_fake := false, bit_index := 0, events := [] }

/-- A bit source that always supplies the data bit 1. -/
def gOnes : Nat → BitResult := fun _ => BitResult.bit 1

/-- A bit source that signals end-of-data immediately. -/
def gEOD : Nat → BitResult := fun _ => BitResult.endOfData

/-- A concrete shutdown-phase state one baud short of the terminal boundary. -/
def sNearEnd : V17TxState :=
  { sData with in_training := true, training_step := 3951, current_get_bit_fake := true }

/-- A concrete terminal state (shutdown sequence completely sent). -/
def sTerm : V17TxState :=
  { sData with
    in_training := true
    training_step := V17_TRAINING_SHUTDOWN_END
    current_get_bit_fake := true }

/-- A concrete training state at the last ones-test baud (the pre-increment
`training_step` equals the training-end boundary). -/
def sEnd : V17TxState :=
  { sData with
    in_training := true
    training_step := V17_TRAINING_SEG_4 + 48
    current_get_bit_fake := true }

/-- A concrete short-training segment-2 state one baud before the shortcut
jump. -/
def sShort : V17TxState :=
  { sData with
    in_training := true
    short_train := true
    training_step := V17_TRAINING_SHORT_SEG_4 - 1
    current_get_bit_fake := true }

/-- Replace a bit stream by all-ones from position `k` onward.  This is the
spec's description of the end-of-data transition: the missing bits of the
symbol are treated as 1. -/
def padOnes (g : Nat → BitResult) (k : Nat) : Nat → BitResult :=
  fun i => if i < k then g i else BitResult.bit 1

/-- The ring-buffer invariant of the pulse-shaping filter: the buffer has its
full duplicated length, the write position is inside the first half, and the
second half mirrors the first. -/
def rrcInvariant (s : V17TxState) : Prop :=
  s.rrc_filter.length = 2 * V17_TX_FILTER_STEPS ∧
  s.rrc_filter_step < V17_TX_FILTER_STEPS ∧
  ∀ i, i < V17_TX_FILTER_STEPS →
    s.rrc_filter.getD (i + V17_TX_FILTER_STEPS) Baud.zero = s.rrc_filter.getD i Baud.zero

/-- States reachable by a successful restart followed by any sequence of
produce calls (with arbitrary bit sources and sample counts). -/
inductive Reachable : V17TxState → Prop
  | restart (s0 : V17TxState) (rate : Nat) (tep st : Bool)
      (h : (v17_tx_restart s0 rate tep st).1 = 0) :
      Reachable (v17_tx_restart s0 rate tep st).2
  | step (s : V17TxState) (g : Nat → BitResult) (len : Nat) (h : Reachable s) :
      Reachable (v17_tx g s len).2

/-! ## C5: the trellis encoder -/

/-- Written from the spec's description of the trellis encoder (§4.3): the
low two bits of the incoming value are differentially encoded through the
fixed 16-entry permutation table indexed by `(newBits << 2) | previousState`;
the 3-bit convolution register `c2 c1 c0` is updated by the fixed XOR/AND
combinational logic (expressed here on individual bits, with AND as bit
multiplication); the symbol index combines the high data bits (shifted up,
masked to four bits) with the two differential bits and one convolutional
parity bit in disjoint bit fields. -/
def trellisEncodeSpec (d c q : Nat) : Nat × Nat × Nat :=
  let d2 := diff_code.getD (q % 4 * 4 + d) 0
  let y1 := d2 % 2
  let y2 := d2 / 2
  let c0 := c % 2
  let c1 := c / 2 % 2
  let c2 := c / 4 % 2
  let t2 := y2 ^^^ y1 ^^^ c2 ^^^ ((y2 ^^^ c1) * c0)
  let t1 := y2 ^^^ c1 ^^^ (y1 * c0)
  (d2, c0 * 4 + t2 * 2 + t1, q / 4 % 16 * 8 + d2 * 2 + c0)

lemma encodeNum_eq_spec : ∀ d < 4, ∀ c < 8, ∀ q < 64,
    encodeNum d c q = trellisEncodeSpec d c q ∧
    (trellisEncodeSpec d c q).1 < 4 ∧ (trellisEncodeSpec d c q).2.1 < 8 := by
  decide

/-- C5: for every input value `q` (at most `bitsPerSymbol ≤ 6` bits wide) and
every well-formed encoder state (2-bit differential state, 3-bit convolution
state), `diff_and_convolutional_encode` differentially encodes the low 2 bits
of `q` through the fixed permutation table indexed by
`(newBits << 2) | previousState`, updates the 3-bit convolution register by
the fixed XOR/AND combinational logic, and returns the symbol index formed of
the high data bits of `q` shifted up and masked, the 2 differential bits and
1 convolutional parity bit, in disjoint fields; the updated state stays
within 2 and 3 bits. -/
theorem trellis_encoder_spec (s : V17TxState) (q : Nat)
    (hd : s.diff < 4) (hc : s.convolution < 8) (hq : q < 64) :
    diff_and_convolutional_encode s q =
      ((trellisEncodeSpec s.diff s.convolution q).2.2,
       { s with diff := (trellisEncodeSpec s.diff s.convolution q).1,
                convolution := (trellisEncodeSpec s.diff s.convolution q).2.1 }) ∧
    (trellisEncodeSpec s.diff s.convolution q).1 < 4 ∧
    (trellisEncodeSpec s.diff s.convolution q).2.1 < 8 := by
  obtain ⟨he, h1, h2⟩ := encodeNum_eq_spec s.diff hd s.convolution hc q hq
  refine ⟨?_, h1, h2⟩
  simp only [diff_and_convolutional_encode, he]

/-- Witness for `trellis_encoder_spec` at a concrete state and input. -/
theorem trellis_encoder_spec_witness :
    diff_and_convolutional_encode sData 5 =
      ((trellisEncodeSpec sData.diff sData.convolution 5).2.2,
       { sData with diff := (trellisEncodeSpec sData.diff sData.convolution 5).1,
                    convolution := (trellisEncodeSpec sData.diff sData.convolution 5).2.1 }) ∧
    (trellisEncodeSpec sData.diff sData.convolution 5).1 < 4 ∧
    (trellisEncodeSpec sData.diff sData.convolution 5).2.1 < 8 :=
  trellis_encoder_spec sData 5 (by decide) (by decide) (by decide)

/-! ## C6: idempotent termination -/

/-- C6: once `training_step` has reached the shutdown-end boundary, every
`v17_tx` call returns 0 produced samples and returns the state bit-for-bit
unchanged. -/
theorem v17_tx_after_shutdown (g : Nat → BitResult) (s : V17TxState) (len : Nat)
    (h : V17_TRAINING_SHUTDOWN_END ≤ s.training_step) :
    v17_tx g s len = (0, s) := by
  simp [v17_tx, h]

/-- Witness for `v17_tx_after_shutdown` at a concrete terminal state. -/
theorem v17_tx_after_shutdown_witness :
    V17_TRAINING_SHUTDOWN_END ≤ sTerm.training_step ∧ v17_tx gOnes sTerm 25 = (0, sTerm) :=
  ⟨by decide, v17_tx_after_shutdown gOnes sTerm 25 (by decide)⟩

/-! ## C2: the produce-call contract (corrected) -/

set_option maxRecDepth 20000 in
/-- C2 (counterexample to the claim as stated): starting one baud short of
the terminal boundary, a 40-sample call crosses the shutdown-end boundary
during the call yet still produces all 40 requested samples, not fewer. -/
theorem v17_tx_terminal_cross_counterexample :
    sNearEnd.training_step < V17_TRAINING_SHUTDOWN_END ∧
    V17_TRAINING_SHUTDOWN_END ≤ (v17_tx gOnes sNearEnd 40).2.training_step ∧
    (v17_tx gOnes sNearEnd 40).1 = 40 := by
  refine ⟨by decide, by decide, by decide⟩

/-- C2 (amended): the terminal check happens only at call entry.  A call made
with `training_step` already at or past the shutdown-end boundary produces 0
samples; any other call produces exactly the requested number of samples,
even when the terminal boundary is crossed mid-call; the produced count never
exceeds the requested count. -/
theorem v17_tx_produced_count (g : Nat → BitResult) (s : V17TxState) (len : Nat) :
    (v17_tx g s len).1 =
      (if V17_TRAINING_SHUTDOWN_END ≤ s.training_step then 0 else len) ∧
    (v17_tx g s len).1 ≤ len := by
  unfold v17_tx
  split <;> simp

/-! ## C7: bit-rate validation -/

/-- C7: `v17_tx_restart` and `v17_tx_init` accept exactly the bit rates
7200, 9600, 12000 and 14400, setting `bits_per_symbol` to 3, 4, 5, 6 and
selecting the matching constellation table; any other bit rate makes
`v17_tx_restart` return -1 without touching any field, and makes
`v17_tx_init` produce no instance. -/
theorem bit_rate_validation :
    (∀ s : V17TxState, ∀ tep st : Bool,
      (v17_tx_restart s 7200 tep st).1 = 0 ∧
      (v17_tx_restart s 7200 tep st).2.bits_per_symbol = 3 ∧
      (v17_tx_restart s 7200 tep st).2.constellation = ConstTable.c7200 ∧
      (v17_tx_restart s 9600 tep st).1 = 0 ∧
      (v17_tx_restart s 9600 tep st).2.bits_per_symbol = 4 ∧
      (v17_tx_restart s 9600 tep st).2.constellation = ConstTable.c9600 ∧
      (v17_tx_restart s 12000 tep st).1 = 0 ∧
      (v17_tx_restart s 12000 tep st).2.bits_per_symbol = 5 ∧
      (v17_tx_restart s 12000 tep st).2.constellation = ConstTable.c12000 ∧
      (v17_tx_restart s 14400 tep st).1 = 0 ∧
      (v17_tx_restart s 14400 tep st).2.bits_per_symbol = 6 ∧
      (v17_tx_restart s 14400 tep st).2.constellation = ConstTable.c14400) ∧
    (∀ s : V17TxState, ∀ rate : Nat, ∀ tep st : Bool,
      rate ∉ [7200, 9600, 12000, 14400] → v17_tx_restart s rate tep st = (-1, s)) ∧
    (∀ rate : Nat, ∀ tep : Bool,
      rate ∉ [7200, 9600, 12000, 14400] → v17_tx_init rate tep = none) ∧
    (∀ tep : Bool,
      (v17_tx_init 7200 tep).map V17TxState.bits_per_symbol = some 3 ∧
      (v17_tx_init 7200 tep).map V17TxState.constellation = some ConstTable.c7200 ∧
      (v17_tx_init 9600 tep).map V17TxState.bits_per_symbol = some 4 ∧
      (v17_tx_init 9600 tep).map V17TxState.constellation = some ConstTable.c9600 ∧
      (v17_tx_init 12000 tep).map V17TxState.bits_per_symbol = some 5 ∧
      (v17_tx_init 12000 tep).map V17TxState.constellation = some ConstTable.c12000 ∧
      (v17_tx_init 14400 tep).map V17TxState.bits_per_symbol = some 6 ∧
      (v17_tx_init 14400 tep).map V17TxState.constellation = some ConstTable.c14400) := by
  refine ⟨fun s tep st => ?_, fun s rate tep st h => ?_, fun rate tep h => ?_, fun tep => ?_⟩
  · exact ⟨rfl, rfl, rfl, rfl, rfl, rfl, rfl, rfl, rfl, rfl, rfl, rfl⟩
  · unfold v17_tx_restart
    split
    · simp at h
    · simp at h
    · simp at h
    · simp at h
    · rfl
  · unfold v17_tx_init
    split
    all_goals first
      | rfl
      | (exfalso; simp at h)
  · exact ⟨rfl, rfl, rfl, rfl, rfl, rfl, rfl, rfl⟩

/-- Witness for `bit_rate_validation` at concrete rates. -/
theorem bit_rate_validation_witness :
    (v17_tx_restart sData 9600 false false).2.bits_per_symbol = 4 ∧
    v17_tx_restart sData 1234 false false = (-1, sData) ∧
    v17_tx_init 300 true = none :=
  ⟨(bit_rate_validation.1 sData false false).2.2.2.2.1,
   bit_rate_validation.2.1 sData 1234 false false (by decide),
   bit_rate_validation.2.2.1 300 true (by decide)⟩

/-! ## C8: the scrambler contract -/

lemma xor_bits_mod (a b : Nat) : (a % 2) ^^^ (b % 2) = (a + b) % 2 := by
  rcases Nat.mod_two_eq_zero_or_one a with h | h <;>
    rcases Nat.mod_two_eq_zero_or_one b with h' | h' <;>
      rw [Nat.add_mod, h, h'] <;> decide

lemma and_one_xor3 (a b c : Nat) : (a ^^^ b ^^^ c) &&& 1 = (a + b + c) % 2 := by
  rw [Nat.and_xor_distrib_right, Nat.and_xor_distrib_right,
    Nat.and_one_is_mod, Nat.and_one_is_mod, Nat.and_one_is_mod,
    xor_bits_mod, xor_bits_mod]

lemma two_mul_lor_bit (r o : Nat) (h : o ≤ 1) : (2 * r) ||| o = 2 * r + o := by
  interval_cases o
  · simp
  · apply Nat.eq_of_testBit_eq
    intro i
    cases i with
    | zero =>
      simp [Nat.testBit_or, Nat.testBit_zero, Nat.mul_mod_right, Nat.mul_add_mod]
    | succ j =>
      rw [Nat.testBit_or, Nat.testBit_succ, Nat.testBit_succ, Nat.testBit_succ,
        Nat.mul_div_cancel_left _ (by decide : 0 < 2), Nat.mul_add_div (by decide : 0 < 2)]
      simp [Nat.zero_testBit]

/-- C8: the scrambler output bit is `in ⊕ reg[17] ⊕ reg[22]` (the XOR of the
input with bits 17 and 22 of the register, expressed arithmetically as a sum
modulo 2); the register update is a left shift by one with the output
inserted at bit 0 (`2·reg + out`, truncated to the register width); every
successful restart resets the register to the fixed seed `0x2ECDD5`; and two
runs from equal registers over equal input sequences produce equal output
sequences and equal final registers. -/
theorem scrambler_contract :
    (∀ s : V17TxState, ∀ b : Nat,
      (scramble s b).1 = (b + s.scramble_reg / 2 ^ 17 + s.scramble_reg / 2 ^ 22) % 2) ∧
    (∀ s : V17TxState, ∀ b : Nat,
      (scramble s b).2.scramble_reg = (2 * s.scramble_reg + (scramble s b).1) % 2 ^ 32) ∧
    (∀ s : V17TxState, ∀ rate : Nat, ∀ tep st : Bool,
      (v17_tx_restart s rate tep st).1 = 0 →
      (v17_tx_restart s rate tep st).2.scramble_reg = 0x2ECDD5) ∧
    (∀ l : List Nat, ∀ s t : V17TxState, s.scramble_reg = t.scramble_reg →
      (scrambleRun s l).1 = (scrambleRun t l).1 ∧
      (scrambleRun s l).2.scramble_reg = (scrambleRun t l).2.scramble_reg) := by
  have hout : ∀ s : V17TxState, ∀ b : Nat,
      (scramble s b).1 = (b + s.scramble_reg / 2 ^ 17 + s.scramble_reg / 2 ^ 22) % 2 := by
    intro s b
    show (b ^^^ (s.scramble_reg >>> 17) ^^^ (s.scramble_reg >>> 22)) &&& 1 = _
    rw [Nat.shiftRight_eq_div_pow, Nat.shiftRight_eq_div_pow, and_one_xor3]
  refine ⟨hout, fun s b => ?_, fun s rate tep st h => ?_, fun l => ?_⟩
  · show ((s.scramble_reg <<< 1) ||| (scramble s b).1) % 2 ^ 32 = _
    have ho : (scramble s b).1 ≤ 1 := by
      rw [hout]
      omega
    rw [Nat.shiftLeft_eq, pow_one, Nat.mul_comm, two_mul_lor_bit _ _ ho]
  · unfold v17_tx_restart at h ⊢
    split at h
    · rfl
    · rfl
    · rfl
    · rfl
    · simp at h
  · induction l with
    | nil => exact fun s t h => ⟨rfl, h⟩
    | cons b rest ih =>
      intro s t h
      dsimp only [scrambleRun, scramble]
      rw [h]
      have key := ih
        { s with scramble_reg := ((t.scramble_reg <<< 1) |||
            ((b ^^^ (t.scramble_reg >>> 17) ^^^ (t.scramble_reg >>> 22)) &&& 1)) % 2 ^ 32 }
        { t with scramble_reg := ((t.scramble_reg <<< 1) |||
            ((b ^^^ (t.scramble_reg >>> 17) ^^^ (t.scramble_reg >>> 22)) &&& 1)) % 2 ^ 32 }
        rfl
      exact ⟨congrArg _ key.1, key.2⟩

/-- Witness for `scrambler_contract` at a concrete restart and two concrete
equal-register runs. -/
theorem scrambler_contract_witness :
    (v17_tx_restart sData 7200 false false).2.scramble_reg = 0x2ECDD5 ∧
    ((scrambleRun sData [1, 0, 1]).1 = (scrambleRun sTerm [1, 0, 1]).1 ∧
     (scrambleRun sData [1, 0, 1]).2.scramble_reg = (scrambleRun sTerm [1, 0, 1]).2.scramble_reg) :=
  ⟨scrambler_contract.2.2.1 sData 7200 false false (by decide),
   scrambler_contract.2.2.2 [1, 0, 1] sData sTerm (by decide)⟩

/-! ## C9: gain monotonicity -/

/-- C9: the gain stored by `v17_tx_power` is strictly monotonically
increasing in the requested power: for `P1 < P2`, both at most the reference
maximum, the gain for `P1` is strictly smaller than the gain for `P2` (the
pulse-shaper normalisation constant is positive). -/
theorem gain_strict_mono (M T p1 p2 : ℝ) (hT : 0 < T)
    (h1 : p1 ≤ M) (h2 : p2 ≤ M) (h : p1 < p2) :
    v17_tx_power_gain M T p1 < v17_tx_power_gain M T p2 := by
  unfold v17_tx_power_gain
  have h10 : (10 : ℝ) ^ ((p1 - M) / 20) < (10 : ℝ) ^ ((p2 - M) / 20) :=
    (Real.rpow_lt_rpow_left_iff (by norm_num)).mpr (by linarith)
  have hpos : (0 : ℝ) < (10 : ℝ) ^ ((p1 - M) / 20) := Real.rpow_pos_of_pos (by norm_num) _
  gcongr

/-- Witness for `gain_strict_mono` at concrete powers. -/
theorem gain_strict_mono_witness :
    (0 : ℝ) < 2 ∧ (0 : ℝ) ≤ 5 ∧ (1 : ℝ) ≤ 5 ∧ (0 : ℝ) < 1 ∧
    v17_tx_power_gain 5 2 0 < v17_tx_power_gain 5 2 1 :=
  ⟨by norm_num, by norm_num, by norm_num, by norm_num,
   gain_strict_mono 5 2 0 1 (by norm_num) (by norm_num) (by norm_num) (by norm_num)⟩

/-! ## Frame lemmas -/

lemma training_get_frame (s : V17TxState) :
    (training_get s).2.in_training = s.in_training ∧
    (training_get s).2.current_get_bit_fake = s.current_get_bit_fake ∧
    (training_get s).2.events = s.events ∧
    (training_get s).2.bits_per_symbol = s.bits_per_symbol ∧
    (training_get s).2.constellation = s.constellation ∧
    (training_get s).2.diff = s.diff ∧
    (training_get s).2.convolution = s.convolution ∧
    (training_get s).2.bit_index = s.bit_index ∧
    (training_get s).2.rrc_filter = s.rrc_filter ∧
    (training_get s).2.rrc_filter_step = s.rrc_filter_step ∧
    (training_get s).2.baud_phase = s.baud_phase ∧
    (training_get s).2.carrier_phase = s.carrier_phase ∧
    (training_get s).2.carrier_phase_rate = s.carrier_phase_rate ∧
    (training_get s).2.short_train = s.short_train ∧
    (training_get s).2.bit_rate = s.bit_rate := by
  unfold training_get scramble
  dsimp only
  repeat' split
  all_goals simp

lemma dataBitsLoop_pipeline_frame (g : Nat → BitResult) :
    ∀ n i bits (s : V17TxState),
    (dataBitsLoop g n i bits s).2.rrc_filter = s.rrc_filter ∧
    (dataBitsLoop g n i bits s).2.rrc_filter_step = s.rrc_filter_step ∧
    (dataBitsLoop g n i bits s).2.baud_phase = s.baud_phase ∧
    (dataBitsLoop g n i bits s).2.carrier_phase = s.carrier_phase ∧
    (dataBitsLoop g n i bits s).2.carrier_phase_rate = s.carrier_phase_rate ∧
    (dataBitsLoop g n i bits s).2.constellation = s.constellation ∧
    (dataBitsLoop g n i bits s).2.bits_per_symbol = s.bits_per_symbol ∧
    (dataBitsLoop g n i bits s).2.bit_rate = s.bit_rate ∧
    (dataBitsLoop g n i bits s).2.training_step = s.training_step ∧
    (dataBitsLoop g n i bits s).2.short_train = s.short_train ∧
    (dataBitsLoop g n i bits s).2.constellation_state = s.constellation_state ∧
    (dataBitsLoop g n i bits s).2.diff = s.diff ∧
    (dataBitsLoop g n i bits s).2.convolution = s.convolution := by
  intro n
  induction n with
  | zero =>
    intro i bits s
    exact ⟨rfl, rfl, rfl, rfl, rfl, rfl, rfl, rfl, rfl, rfl, rfl, rfl, rfl⟩
  | succ n ih =>
    intro i bits s
    cases hf : s.current_get_bit_fake with
    | true =>
      simp only [dataBitsLoop, getCurrentBit, hf, if_pos, scramble]
      exact ih _ _ _
    | false =>
      cases hr : g s.bit_index with
      | bit b =>
        simp only [dataBitsLoop, getCurrentBit, hf, Bool.false_eq_true, if_false, hr, scramble]
        exact ih _ _ _
      | endOfData =>
        simp only [dataBitsLoop, getCurrentBit, hf, Bool.false_eq_true, if_false, hr, scramble]
        exact ih _ _ _

lemma dataBitsLoop_noEOD_frame (g : Nat → BitResult) :
    ∀ n i bits (s : V17TxState),
    (s.current_get_bit_fake = true ∨ ∀ m, g m ≠ BitResult.endOfData) →
    (dataBitsLoop g n i bits s).2.in_training = s.in_training ∧
    (dataBitsLoop g n i bits s).2.current_get_bit_fake = s.current_get_bit_fake ∧
    (dataBitsLoop g n i bits s).2.events = s.events := by
  intro n
  induction n with
  | zero => exact fun i bits s _ => ⟨rfl, rfl, rfl⟩
  | succ n ih =>
    intro i bits s h
    cases hf : s.current_get_bit_fake with
    | true =>
      simp only [dataBitsLoop, getCurrentBit, hf, if_pos, scramble]
      exact ih _ _ _ (Or.inl rfl)
    | false =>
      have hg : ∀ m, g m ≠ BitResult.endOfData := by
        rcases h with h | h
        · rw [hf] at h; exact absurd h (by simp)
        · exact h
      cases hr : g s.bit_index with
      | bit b =>
        simp only [dataBitsLoop, getCurrentBit, hf, Bool.false_eq_true, if_false, hr, scramble]
        exact ih _ _ _ (Or.inr hg)
      | endOfData => exact absurd hr (hg s.bit_index)

lemma getbaudData_pipeline_frame (g : Nat → BitResult) (s : V17TxState) :
    (getbaudData g s).2.rrc_filter = s.rrc_filter ∧
    (getbaudData g s).2.rrc_filter_step = s.rrc_filter_step ∧
    (getbaudData g s).2.baud_phase = s.baud_phase ∧
    (getbaudData g s).2.carrier_phase = s.carrier_phase ∧
    (getbaudData g s).2.carrier_phase_rate = s.carrier_phase_rate ∧
    (getbaudData g s).2.constellation = s.constellation ∧
    (getbaudData g s).2.bits_per_symbol = s.bits_per_symbol ∧
    (getbaudData g s).2.bit_rate = s.bit_rate ∧
    (getbaudData g s).2.training_step = s.training_step ∧
    (getbaudData g s).2.short_train = s.short_train ∧
    (getbaudData g s).2.constellation_state = s.constellation_state := by
  obtain ⟨h1, h2, h3, h4, h5, h6, h7, h8, h9, h10, h11, h12, h13⟩ :=
    dataBitsLoop_pipeline_frame g s.bits_per_symbol 0 0 s
  unfold getbaudData diff_and_convolutional_encode
  dsimp only
  exact ⟨h1, h2, h3, h4, h5, h6, h7, h8, h9, h10, h11⟩

lemma getbaudData_noEOD_frame (g : Nat → BitResult) (s : V17TxState)
    (h : s.current_get_bit_fake = true ∨ ∀ m, g m ≠ BitResult.endOfData) :
    (getbaudData g s).2.in_training = s.in_training ∧
    (getbaudData g s).2.current_get_bit_fake = s.current_get_bit_fake ∧
    (getbaudData g s).2.events = s.events := by
  obtain ⟨h1, h2, h3⟩ := dataBitsLoop_noEOD_frame g s.bits_per_symbol 0 0 s h
  unfold getbaudData diff_and_convolutional_encode
  dsimp only
  exact ⟨h1, h2, h3⟩

lemma getbaudData_out (g : Nat → BitResult) (s : V17TxState) :
    ∃ idx, (getbaudData g s).1 = Baud.pt s.constellation idx := by
  obtain ⟨-, -, -, -, -, h6, -⟩ := dataBitsLoop_pipeline_frame g s.bits_per_symbol 0 0 s
  unfold getbaudData diff_and_convolutional_encode
  dsimp only
  exact ⟨_, by rw [h6]⟩

/-! ## C1: the shutdown-complete notification is unreachable -/

lemma dataBitsLoop_events_sc (g : Nat → BitResult) :
    ∀ n i bits (s : V17TxState),
    ((dataBitsLoop g n i bits s).2.events).count Event.shutdownComplete =
      s.events.count Event.shutdownComplete := by
  intro n
  induction n with
  | zero => intro i bits s; rfl
  | succ n ih =>
    intro i bits s
    cases hf : s.current_get_bit_fake with
    | true =>
      simp only [dataBitsLoop, getCurrentBit, hf, if_pos, scramble]
      exact ih _ _ _
    | false =>
      cases hr : g s.bit_index with
      | bit b =>
        simp only [dataBitsLoop, getCurrentBit, hf, Bool.false_eq_true, if_false, hr, scramble]
        exact ih _ _ _
      | endOfData =>
        simp only [dataBitsLoop, getCurrentBit, hf, Bool.false_eq_true, if_false, hr, scramble]
        rw [ih]
        simp [List.count_append]

lemma getbaudData_events_sc (g : Nat → BitResult) (s : V17TxState) :
    ((getbaudData g s).2.events).count Event.shutdownComplete =
      s.events.count Event.shutdownComplete := by
  unfold getbaudData diff_and_convolutional_encode
  dsimp only
  exact dataBitsLoop_events_sc g s.bits_per_symbol 0 0 s

lemma getbaud_events_sc (g : Nat → BitResult) (s : V17TxState) :
    ((getbaud g s).2.events).count Event.shutdownComplete =
      s.events.count Event.shutdownComplete := by
  unfold getbaud
  dsimp only
  split
  · split
    · split
      · rw [(training_get_frame s).2.2.1]
      · split
        · exact getbaudData_events_sc g _
        · exact getbaudData_events_sc g _
    · split
      · rfl
      · split
        · next h1 h2 h3 h4 =>
          exfalso
          simp only [V17_TRAINING_SHUTDOWN_END, V17_TRAINING_SHUTDOWN_A, V17_TRAINING_END,
            V17_TRAINING_SEG_4, V17_TRAINING_SEG_3, V17_TRAINING_SEG_2, V17_TRAINING_SEG_1,
            V17_TRAINING_SEG_TEP_B, V17_TRAINING_SEG_TEP_A] at h3 h4
          omega
        · exact getbaudData_events_sc g _
  · exact getbaudData_events_sc g _

lemma v17_tx_sample_events_sc (g : Nat → BitResult) (s : V17TxState) :
    ((v17_tx_sample g s).events).count Event.shutdownComplete =
      s.events.count Event.shutdownComplete := by
  unfold v17_tx_sample
  dsimp only
  split
  · split
    · exact getbaud_events_sc g { s with baud_phase := s.baud_phase + 3 - 10 }
    · exact getbaud_events_sc g { s with baud_phase := s.baud_phase + 3 - 10 }
  · rfl

lemma v17_tx_loop_events_sc (g : Nat → BitResult) :
    ∀ len (s : V17TxState),
    ((v17_tx_loop g len s).events).count Event.shutdownComplete =
      s.events.count Event.shutdownComplete := by
  intro len
  induction len with
  | zero => intro s; rfl
  | succ n ih =>
    intro s
    simp only [v17_tx_loop]
    rw [ih, v17_tx_sample_events_sc]

/-- C1 (the code contradicts the claim): the shutdown-complete notification
never fires.  Neither a single `getbaud` nor any `v17_tx` call ever adds a
`shutdownComplete` event to the log, from any state whatsoever: the
`training_step == V17_TRAINING_SHUTDOWN_END` check sits behind the
`training_step > V17_TRAINING_SHUTDOWN_A` early return for the silence
bauds, and `V17_TRAINING_SHUTDOWN_END > V17_TRAINING_SHUTDOWN_A`, so the
notification site is unreachable. -/
theorem shutdown_complete_never_notified :
    (∀ g : Nat → BitResult, ∀ s : V17TxState,
      ((getbaud g s).2.events).count Event.shutdownComplete =
        s.events.count Event.shutdownComplete) ∧
    (∀ g : Nat → BitResult, ∀ s : V17TxState, ∀ len : Nat,
      ((v17_tx g s len).2.events).count Event.shutdownComplete =
        s.events.count Event.shutdownComplete) := by
  refine ⟨fun g s => getbaud_events_sc g s, fun g s len => ?_⟩
  unfold v17_tx
  split
  · rfl
  · exact v17_tx_loop_events_sc g len s

/-! ## C4: training boundaries -/

/-- C4: with a bit source that never signals end-of-data, `in_training` flips
to false at exactly the baud entered with
`training_step = segment4Start + 48` (the training-end boundary), and at that
baud the active bit source switches from the internal fallback to the
caller-supplied one; with short training enabled, segment 2 jumps straight to
the segment-4 boundary when `training_step` reaches `segment2Start + 38`,
whereas without short training segment 2 continues (up to
`segment2Start + 2976`, the start of segment 3). -/
theorem training_boundaries :
    (∀ g : Nat → BitResult, ∀ s : V17TxState, s.in_training = true →
      (∀ i, g i ≠ BitResult.endOfData) →
      (((getbaud g s).2.in_training = false) ↔
        s.training_step = V17_TRAINING_SEG_4 + 48) ∧
      (s.training_step = V17_TRAINING_SEG_4 + 48 →
        (getbaud g s).2.current_get_bit_fake = false)) ∧
    (∀ s : V17TxState, s.short_train = true →
      s.training_step + 1 = V17_TRAINING_SEG_2 + 38 →
      (training_get s).2.training_step = V17_TRAINING_SEG_4) ∧
    (∀ s : V17TxState, s.short_train = false →
      V17_TRAINING_SEG_2 < s.training_step + 1 →
      s.training_step + 1 ≤ V17_TRAINING_SEG_3 →
      (training_get s).2.training_step = s.training_step + 1) := by
  refine ⟨fun g s hin hg => ?_, fun s hshort hstep => ?_, fun s hshort h1 h2 => ?_⟩
  · unfold getbaud
    dsimp only
    rw [if_pos hin]
    by_cases hA : s.training_step ≤ V17_TRAINING_END
    · by_cases hB : s.training_step < V17_TRAINING_SEG_4
      · rw [if_pos hA, if_pos hB]
        have hf := training_get_frame s
        constructor
        · rw [hf.1, hin]
          constructor
          · intro hc; cases hc
          · intro hstep
            exfalso
            simp only [V17_TRAINING_SEG_4, V17_TRAINING_SEG_3, V17_TRAINING_SEG_2,
              V17_TRAINING_SEG_1, V17_TRAINING_SEG_TEP_B, V17_TRAINING_SEG_TEP_A] at hB hstep
            omega
        · intro hstep
          exfalso
          simp only [V17_TRAINING_SEG_4, V17_TRAINING_SEG_3, V17_TRAINING_SEG_2,
            V17_TRAINING_SEG_1, V17_TRAINING_SEG_TEP_B, V17_TRAINING_SEG_TEP_A] at hB hstep
          omega
      · rw [if_pos hA, if_neg hB]
        by_cases hC : V17_TRAINING_END < s.training_step + 1
        · rw [if_pos hC]
          have hfr := getbaudData_noEOD_frame g
            { s with training_step := s.training_step + 1,
                     current_get_bit_fake := false, in_training := false }
            (Or.inr hg)
          have hstep : s.training_step = V17_TRAINING_SEG_4 + 48 := by
            simp only [V17_TRAINING_END, V17_TRAINING_SEG_4, V17_TRAINING_SEG_3,
              V17_TRAINING_SEG_2, V17_TRAINING_SEG_1, V17_TRAINING_SEG_TEP_B,
              V17_TRAINING_SEG_TEP_A] at hA hC ⊢
            omega
          exact ⟨by rw [hfr.1]; simp [hstep], fun _ => by rw [hfr.2.1]⟩
        · rw [if_neg hC]
          have hfr := getbaudData_noEOD_frame g
            { s with training_step := s.training_step + 1 } (Or.inr hg)
          constructor
          · rw [hfr.1]
            dsimp only
            rw [hin]
            constructor
            · intro hc; cases hc
            · intro hstep
              exfalso
              simp only [V17_TRAINING_END, V17_TRAINING_SEG_4, V17_TRAINING_SEG_3,
                V17_TRAINING_SEG_2, V17_TRAINING_SEG_1, V17_TRAINING_SEG_TEP_B,
                V17_TRAINING_SEG_TEP_A] at hC hstep
              omega
          · intro hstep
            exfalso
            have : V17_TRAINING_END < s.training_step + 1 := by
              simp only [V17_TRAINING_END, V17_TRAINING_SEG_4, V17_TRAINING_SEG_3,
                V17_TRAINING_SEG_2, V17_TRAINING_SEG_1, V17_TRAINING_SEG_TEP_B,
                V17_TRAINING_SEG_TEP_A] at hstep ⊢
              omega
            exact hC this
    · rw [if_neg hA]
      have hstepFalse : ¬ s.training_step = V17_TRAINING_SEG_4 + 48 := by
        simp only [V17_TRAINING_END, V17_TRAINING_SEG_4, V17_TRAINING_SEG_3,
          V17_TRAINING_SEG_2, V17_TRAINING_SEG_1, V17_TRAINING_SEG_TEP_B,
          V17_TRAINING_SEG_TEP_A] at hA ⊢
        omega
      by_cases hD : V17_TRAINING_SHUTDOWN_A < s.training_step + 1
      · rw [if_pos hD]
        refine ⟨?_, fun hstep => absurd hstep hstepFalse⟩
        dsimp only
        rw [hin]
        constructor
        · intro hc; cases hc
        · intro hstep; exact absurd hstep hstepFalse
      · rw [if_neg hD]
        by_cases hE : s.training_step + 1 = V17_TRAINING_SHUTDOWN_END
        · rw [if_pos hE]
          have hfr := getbaudData_noEOD_frame g
            { s with training_step := s.training_step + 1,
                     events := s.events ++ [Event.shutdownComplete] } (Or.inr hg)
          refine ⟨?_, fun hstep => absurd hstep hstepFalse⟩
          rw [hfr.1]
          dsimp only
          rw [hin]
          constructor
          · intro hc; cases hc
          · intro hstep2; exact absurd hstep2 hstepFalse
        · rw [if_neg hE]
          have hfr := getbaudData_noEOD_frame g
            { s with training_step := s.training_step + 1 } (Or.inr hg)
          refine ⟨?_, fun hstep => absurd hstep hstepFalse⟩
          rw [hfr.1]
          dsimp only
          rw [hin]
          constructor
          · intro hc; cases hc
          · intro hstep2; exact absurd hstep2 hstepFalse
  · unfold training_get
    dsimp only
    rw [hstep]
    have c1 : V17_TRAINING_SEG_2 + 38 ≤ V17_TRAINING_SEG_3 := by
      simp only [V17_TRAINING_SEG_3, V17_TRAINING_SEG_2, V17_TRAINING_SEG_1,
        V17_TRAINING_SEG_TEP_B, V17_TRAINING_SEG_TEP_A]
      omega
    have c2 : ¬ V17_TRAINING_SEG_2 + 38 ≤ V17_TRAINING_SEG_2 := by omega
    rw [if_pos c1, if_neg c2]
    dsimp only [scramble]
    rw [hshort]
    have c3 : (V17_TRAINING_SEG_2 + 38 == V17_TRAINING_SHORT_SEG_4) = true := by
      simp [V17_TRAINING_SHORT_SEG_4]
    simp only [c3, Bool.true_and, if_true]
  · unfold training_get
    dsimp only
    have c2 : ¬ s.training_step + 1 ≤ V17_TRAINING_SEG_2 := Nat.not_le.mpr h1
    rw [if_pos h2, if_neg c2]
    dsimp only [scramble]
    rw [hshort]
    simp

/-- Witness for `training_boundaries` at the concrete training-end and
short-training states. -/
theorem training_boundaries_witness :
    ((getbaud gOnes sEnd).2.in_training = false) ∧
    ((getbaud gOnes sEnd).2.current_get_bit_fake = false) ∧
    ((training_get sShort).2.training_step = V17_TRAINING_SEG_4) :=
  ⟨(training_boundaries.1 gOnes sEnd rfl (fun i h => nomatch h)).1.mpr rfl,
   (training_boundaries.1 gOnes sEnd rfl (fun i h => nomatch h)).2 rfl,
   training_boundaries.2.1 sShort rfl (by decide)⟩

/-! ## C10: the duplicated ring-buffer invariant -/

lemma getD_replicate_self (n m : Nat) (x : Baud) : (List.replicate n x).getD m x = x := by
  rw [List.getD_eq_getElem?_getD, List.getElem?_replicate]
  split <;> rfl

lemma getbaud_pipeline_frame (g : Nat → BitResult) (s : V17TxState) :
    (getbaud g s).2.rrc_filter = s.rrc_filter ∧
    (getbaud g s).2.rrc_filter_step = s.rrc_filter_step ∧
    (getbaud g s).2.carrier_phase = s.carrier_phase ∧
    (getbaud g s).2.carrier_phase_rate = s.carrier_phase_rate := by
  unfold getbaud
  dsimp only
  split
  · split
    · split
      · obtain ⟨-, -, -, -, -, -, -, -, h9, h10, -, h12, h13, -, -⟩ := training_get_frame s
        exact ⟨h9, h10, h12, h13⟩
      · split
        all_goals
          obtain ⟨h1, h2, -, h4, h5, -⟩ := getbaudData_pipeline_frame g _
        all_goals exact ⟨h1, h2, h4, h5⟩
    · split
      · exact ⟨rfl, rfl, rfl, rfl⟩
      · split
        all_goals
          obtain ⟨h1, h2, -, h4, h5, -⟩ := getbaudData_pipeline_frame g _
        all_goals exact ⟨h1, h2, h4, h5⟩
  · obtain ⟨h1, h2, -, h4, h5, -⟩ := getbaudData_pipeline_frame g s
    exact ⟨h1, h2, h4, h5⟩

lemma double_set_mirror (F : List Baud) (b : Baud) (k : Nat)
    (hlen : F.length = 2 * V17_TX_FILTER_STEPS) (hk : k < V17_TX_FILTER_STEPS)
    (hmir : ∀ i, i < V17_TX_FILTER_STEPS →
      F.getD (i + V17_TX_FILTER_STEPS) Baud.zero = F.getD i Baud.zero)
    (i : Nat) (hi : i < V17_TX_FILTER_STEPS) :
    ((F.set k b).set (k + V17_TX_FILTER_STEPS) b).getD (i + V17_TX_FILTER_STEPS) Baud.zero =
    ((F.set k b).set (k + V17_TX_FILTER_STEPS) b).getD i Baud.zero := by
  rw [List.getD_eq_getElem?_getD, List.getD_eq_getElem?_getD]
  by_cases hik : i = k
  · subst hik
    have hb1 : i + V17_TX_FILTER_STEPS < F.length := by rw [hlen]; omega
    have hb2 : i < F.length := by rw [hlen]; omega
    have l1 : ((F.set i b).set (i + V17_TX_FILTER_STEPS) b)[i + V17_TX_FILTER_STEPS]? = some b := by
      rw [List.getElem?_set]
      simp [hb1]
    have l2 : ((F.set i b).set (i + V17_TX_FILTER_STEPS) b)[i]? = some b := by
      rw [List.getElem?_set_ne (by omega)]
      rw [List.getElem?_set]
      simp [hb2]
    rw [l1, l2]
  · have h1 : (k + V17_TX_FILTER_STEPS) ≠ (i + V17_TX_FILTER_STEPS) := by omega
    have h2 : k ≠ i + V17_TX_FILTER_STEPS := by omega
    have h3 : (k + V17_TX_FILTER_STEPS) ≠ i := by omega
    have h4 : k ≠ i := fun h => hik h.symm
    rw [List.getElem?_set_ne h1, List.getElem?_set_ne h2,
      List.getElem?_set_ne h3, List.getElem?_set_ne h4]
    have := hmir i hi
    rw [List.getD_eq_getElem?_getD, List.getD_eq_getElem?_getD] at this
    exact this

lemma v17_tx_sample_invariant (g : Nat → BitResult) (s : V17TxState)
    (h : rrcInvariant s) : rrcInvariant (v17_tx_sample g s) := by
  obtain ⟨hlen, hstep, hmir⟩ := h
  unfold v17_tx_sample rrcInvariant
  dsimp only
  split
  · obtain ⟨f1, f2, -, -⟩ :=
      getbaud_pipeline_frame g { s with baud_phase := s.baud_phase + 3 - 10 }
    have f1' : (getbaud g { s with baud_phase := s.baud_phase + 3 - 10 }).2.rrc_filter =
        s.rrc_filter := f1
    have f2' : (getbaud g { s with baud_phase := s.baud_phase + 3 - 10 }).2.rrc_filter_step =
        s.rrc_filter_step := f2
    split
    · refine ⟨?_, ?_, fun i hi => ?_⟩
      · rw [f1', f2']
        simp [List.length_set, hlen]
      · simp [V17_TX_FILTER_STEPS]
      · rw [f1', f2']
        exact double_set_mirror s.rrc_filter _ s.rrc_filter_step hlen hstep hmir i hi
    · next hwrap =>
      rw [f2'] at hwrap
      refine ⟨?_, ?_, fun i hi => ?_⟩
      · rw [f1', f2']
        simp [List.length_set, hlen]
      · simp only [f2']
        omega
      · rw [f1', f2']
        exact double_set_mirror s.rrc_filter _ s.rrc_filter_step hlen hstep hmir i hi
  · exact ⟨hlen, hstep, hmir⟩

lemma v17_tx_loop_invariant (g : Nat → BitResult) :
    ∀ len (s : V17TxState), rrcInvariant s → rrcInvariant (v17_tx_loop g len s) := by
  intro len
  induction len with
  | zero => exact fun s h => h
  | succ n ih =>
    intro s h
    simp only [v17_tx_loop]
    exact ih _ (v17_tx_sample_invariant g s h)

/-- C10: in every state reachable by a successful restart followed by any
sequence of produce calls, the duplicated pulse-shaping ring buffer has its
full length, satisfies `rrc_filter[i + V17_TX_FILTER_STEPS] = rrc_filter[i]`
for every `i < V17_TX_FILTER_STEPS`, the write position stays inside
`[0, V17_TX_FILTER_STEPS)`, and consequently every index
`i + rrc_filter_step` read by the filter inner product is inside the
buffer. -/
theorem rrc_mirror_invariant_reachable (s : V17TxState) (h : Reachable s) :
    rrcInvariant s ∧
    (∀ i, i < V17_TX_FILTER_STEPS → i + s.rrc_filter_step < 2 * V17_TX_FILTER_STEPS) := by
  have main : rrcInvariant s := by
    induction h with
    | restart s0 rate tep st h0 =>
      unfold v17_tx_restart at h0 ⊢
      split at h0
      case h_5 => simp at h0
      all_goals
        refine ⟨?_, by simp [restartCommon, V17_TX_FILTER_STEPS], fun i hi => ?_⟩
      all_goals
        unfold restartCommon
      · simp
      · rw [getD_replicate_self, getD_replicate_self]
      · simp
      · rw [getD_replicate_self, getD_replicate_self]
      · simp
      · rw [getD_replicate_self, getD_replicate_self]
      · simp
      · rw [getD_replicate_self, getD_replicate_self]
    | step s g len h ih =>
      unfold v17_tx
      split
      · exact ih
      · exact v17_tx_loop_invariant g len s ih
  have hstep := main.2.1
  exact ⟨main, fun i hi => by omega⟩

/-- Witness for `rrc_mirror_invariant_reachable` at the state produced by a
concrete successful restart followed by one produce call. -/
theorem rrc_mirror_invariant_reachable_witness :
    rrcInvariant (v17_tx gOnes (v17_tx_restart initZeroState 9600 false false).2 7).2 ∧
    (∀ i, i < V17_TX_FILTER_STEPS →
      i + (v17_tx gOnes (v17_tx_restart initZeroState 9600 false false).2 7).2.rrc_filter_step <
        2 * V17_TX_FILTER_STEPS) :=
  rrc_mirror_invariant_reachable _
    (Reachable.step _ gOnes 7
      (Reachable.restart initZeroState 9600 false false (by decide)))

/-! ## C3: the end-of-data transition and shutdown sequence -/

lemma dataBitsLoop_fake_events (g : Nat → BitResult) (n i acc : Nat) (s : V17TxState)
    (hf : s.current_get_bit_fake = true) :
    (dataBitsLoop g n i acc s).2.events = s.events ∧
    (dataBitsLoop g n i acc s).2.current_get_bit_fake = true ∧
    (dataBitsLoop g n i acc s).2.in_training = s.in_training := by
  obtain ⟨a, b, c⟩ := dataBitsLoop_noEOD_frame g n i acc s (Or.inl hf)
  exact ⟨c, by rw [b, hf], a⟩

lemma dataBitsLoop_step_eod (g : Nat → BitResult) (n i acc : Nat) (s : V17TxState)
    (hf : s.current_get_bit_fake = false)
    (hg0 : g s.bit_index = BitResult.endOfData) :
    dataBitsLoop g (n + 1) i acc s =
      dataBitsLoop g n (i + 1)
        (acc ||| (((1 ^^^ (s.scramble_reg >>> 17) ^^^ (s.scramble_reg >>> 22)) &&& 1) <<< i))
        { s with bit_index := s.bit_index + 1,
                 events := s.events ++ [Event.endOfData],
                 current_get_bit_fake := true,
                 in_training := true,
                 scramble_reg := ((s.scramble_reg <<< 1) |||
                   ((1 ^^^ (s.scramble_reg >>> 17) ^^^ (s.scramble_reg >>> 22)) &&& 1)) % 2 ^ 32 } := by
  simp only [dataBitsLoop, getCurrentBit, hf, Bool.false_eq_true, if_false, hg0, scramble]

lemma dataBitsLoop_eod (g : Nat → BitResult) :
    ∀ n j i acc (s : V17TxState), j < n →
    s.current_get_bit_fake = false →
    (∀ m, m < j → g (s.bit_index + m) ≠ BitResult.endOfData) →
    g (s.bit_index + j) = BitResult.endOfData →
    (dataBitsLoop g n i acc s).2.events = s.events ++ [Event.endOfData] ∧
    (dataBitsLoop g n i acc s).2.current_get_bit_fake = true ∧
    (dataBitsLoop g n i acc s).2.in_training = true := by
  intro n
  induction n with
  | zero => intro j i acc s hj; exact absurd hj (Nat.not_lt_zero j)
  | succ n ih =>
    intro j i acc s hj hf hbefore hk
    cases j with
    | zero =>
      have hg0 : g s.bit_index = BitResult.endOfData := by simpa using hk
      rw [dataBitsLoop_step_eod g n i acc s hf hg0]
      obtain ⟨a, b, c⟩ := dataBitsLoop_fake_events g n (i + 1)
        (acc ||| (((1 ^^^ (s.scramble_reg >>> 17) ^^^ (s.scramble_reg >>> 22)) &&& 1) <<< i))
        { s with bit_index := s.bit_index + 1,
                 events := s.events ++ [Event.endOfData],
                 current_get_bit_fake := true,
                 in_training := true,
                 scramble_reg := ((s.scramble_reg <<< 1) |||
                   ((1 ^^^ (s.scramble_reg >>> 17) ^^^ (s.scramble_reg >>> 22)) &&& 1)) % 2 ^ 32 }
        rfl
      exact ⟨by rw [a], b, by rw [c]⟩
    | succ j' =>
      have hne : g s.bit_index ≠ BitResult.endOfData := by
        have := hbefore 0 (Nat.succ_pos j')
        simpa using this
      obtain ⟨b0, hb0⟩ : ∃ b0, g s.bit_index = BitResult.bit b0 := by
        cases hgb : g s.bit_index with
        | bit b0 => exact ⟨b0, rfl⟩
        | endOfData => exact absurd hgb hne
      simp only [dataBitsLoop, getCurrentBit, hf, Bool.false_eq_true, if_false, hb0, scramble]
      apply ih j'
      · omega
      · rfl
      · intro m hm
        have h1 := hbefore (m + 1) (by omega)
        dsimp only
        have he : s.bit_index + 1 + m = s.bit_index + (m + 1) := by omega
        rw [he]
        exact h1
      · dsimp only
        have he : s.bit_index + 1 + j' = s.bit_index + (j' + 1) := by omega
        rw [he]
        exact hk

lemma getbaudData_eod (g : Nat → BitResult) (s : V17TxState) (j : Nat)
    (hj : j < s.bits_per_symbol)
    (hf : s.current_get_bit_fake = false)
    (hbefore : ∀ m, m < j → g (s.bit_index + m) ≠ BitResult.endOfData)
    (hk : g (s.bit_index + j) = BitResult.endOfData) :
    (getbaudData g s).2.events = s.events ++ [Event.endOfData] ∧
    (getbaudData g s).2.current_get_bit_fake = true ∧
    (getbaudData g s).2.in_training = true := by
  obtain ⟨e1, e2, e3⟩ := dataBitsLoop_eod g s.bits_per_symbol j 0 0 s hj hf hbefore hk
  unfold getbaudData diff_and_convolutional_encode
  dsimp only
  exact ⟨e1, e2, e3⟩

lemma getbaud_eod (g : Nat → BitResult) (s : V17TxState) (j : Nat)
    (hin : s.in_training = false) (hf : s.current_get_bit_fake = false)
    (hj : j < s.bits_per_symbol)
    (hbefore : ∀ m, m < j → g (s.bit_index + m) ≠ BitResult.endOfData)
    (hk : g (s.bit_index + j) = BitResult.endOfData) :
    (∃ idx, (getbaud g s).1 = Baud.pt s.constellation idx) ∧
    (getbaud g s).2.events = s.events ++ [Event.endOfData] ∧
    (getbaud g s).2.current_get_bit_fake = true ∧
    (getbaud g s).2.in_training = true ∧
    (getbaud g s).2.training_step = s.training_step ∧
    (getbaud g s).2.constellation = s.constellation ∧
    (getbaud g s).2.bits_per_symbol = s.bits_per_symbol ∧
    (getbaud g s).2.events.count Event.endOfData = s.events.count Event.endOfData + 1 := by
  have hnt : ¬ (s.in_training = true) := by rw [hin]; simp
  unfold getbaud
  rw [if_neg hnt]
  obtain ⟨e1, e2, e3⟩ := getbaudData_eod g s j hj hf hbefore hk
  obtain ⟨-, -, -, -, -, p6, p7, -, p9, -, -⟩ := getbaudData_pipeline_frame g s
  obtain ⟨idx, ho⟩ := getbaudData_out g s
  refine ⟨⟨idx, ho⟩, e1, e2, e3, p9, p6, p7, ?_⟩
  rw [e1]
  simp [List.count_append]

lemma dataBitsLoop_ones (g1 g2 : Nat → BitResult) :
    ∀ n i acc (s1 s2 : V17TxState),
    s1.current_get_bit_fake = true → s2.current_get_bit_fake = false →
    (∀ m, g2 (s2.bit_index + m) = BitResult.bit 1) →
    s1.scramble_reg = s2.scramble_reg →
    (dataBitsLoop g1 n i acc s1).1 = (dataBitsLoop g2 n i acc s2).1 := by
  intro n
  induction n with
  | zero => intro i acc s1 s2 _ _ _ _; rfl
  | succ n ih =>
    intro i acc s1 s2 h1 h2 hg hreg
    have hr2 : g2 s2.bit_index = BitResult.bit 1 := by
      have := hg 0
      simpa using this
    simp only [dataBitsLoop, getCurrentBit, h1, if_pos, h2, Bool.false_eq_true, if_false,
      hr2, scramble]
    rw [hreg]
    apply ih
    · rfl
    · rfl
    · intro m
      dsimp only
      have he : s2.bit_index + 1 + m = s2.bit_index + (1 + m) := by omega
      rw [he]
      exact hg (1 + m)
    · rfl

lemma dataBitsLoop_pad_eq (g : Nat → BitResult) (k : Nat) :
    ∀ n i acc (s : V17TxState),
    s.current_get_bit_fake = false → s.bit_index ≤ k →
    (∀ m, s.bit_index ≤ m → m < k → g m ≠ BitResult.endOfData) →
    g k = BitResult.endOfData →
    (dataBitsLoop g n i acc s).1 = (dataBitsLoop (padOnes g k) n i acc s).1 := by
  intro n
  induction n with
  | zero => intro i acc s _ _ _ _; rfl
  | succ n ih =>
    intro i acc s hf hle hreal hk
    by_cases hbi : s.bit_index = k
    · have hg0 : g s.bit_index = BitResult.endOfData := by rw [hbi]; exact hk
      have hp0 : padOnes g k s.bit_index = BitResult.bit 1 := by
        unfold padOnes
        rw [if_neg (by omega)]
      simp only [dataBitsLoop, getCurrentBit, hf, Bool.false_eq_true, if_false, hg0, hp0,
        scramble]
      apply dataBitsLoop_ones
      · rfl
      · rfl
      · intro m
        unfold padOnes
        dsimp only
        rw [if_neg (by omega)]
      · rfl
    · have hlt : s.bit_index < k := Nat.lt_of_le_of_ne hle hbi
      have hne : g s.bit_index ≠ BitResult.endOfData :=
        hreal s.bit_index (Nat.le_refl _) hlt
      obtain ⟨b0, hb0⟩ : ∃ b0, g s.bit_index = BitResult.bit b0 := by
        cases hgb : g s.bit_index with
        | bit b0 => exact ⟨b0, rfl⟩
        | endOfData => exact absurd hgb hne
      have hp0 : padOnes g k s.bit_index = BitResult.bit b0 := by
        unfold padOnes
        rw [if_pos hlt]
        exact hb0
      simp only [dataBitsLoop, getCurrentBit, hf, Bool.false_eq_true, if_false, hb0, hp0,
        scramble]
      apply ih
      · rfl
      · dsimp only; omega
      · intro m hm1 hm2
        exact hreal m (by dsimp only at hm1; omega) hm2
      · exact hk

lemma getbaud_pad (g : Nat → BitResult) (s : V17TxState) (j : Nat)
    (hin : s.in_training = false) (hf : s.current_get_bit_fake = false)
    (hbefore : ∀ m, m < j → g (s.bit_index + m) ≠ BitResult.endOfData)
    (hk : g (s.bit_index + j) = BitResult.endOfData) :
    (getbaud g s).1 = (getbaud (padOnes g (s.bit_index + j)) s).1 := by
  have hnt : ¬ (s.in_training = true) := by rw [hin]; simp
  unfold getbaud
  rw [if_neg hnt, if_neg hnt]
  have hb := dataBitsLoop_pad_eq g (s.bit_index + j) s.bits_per_symbol 0 0 s hf
    (by omega)
    (by
      intro m h1 h2
      have h3 := hbefore (m - s.bit_index) (by omega)
      rwa [Nat.add_sub_cancel' h1] at h3)
    hk
  obtain ⟨-, -, -, -, -, a6, -, -, -, -, -, a12, a13⟩ :=
    dataBitsLoop_pipeline_frame g s.bits_per_symbol 0 0 s
  obtain ⟨-, -, -, -, -, b6, -, -, -, -, -, b12, b13⟩ :=
    dataBitsLoop_pipeline_frame (padOnes g (s.bit_index + j)) s.bits_per_symbol 0 0 s
  unfold getbaudData diff_and_convolutional_encode
  dsimp only
  rw [hb, a6, a12, a13, b6, b12, b13]

lemma getbaud_shutdown_ones (g : Nat → BitResult) (s : V17TxState)
    (hin : s.in_training = true) (hgt : V17_TRAINING_END < s.training_step)
    (hle : s.training_step + 1 ≤ V17_TRAINING_SHUTDOWN_A)
    (hf : s.current_get_bit_fake = true) :
    (∃ idx, (getbaud g s).1 = Baud.pt s.constellation idx) ∧
    (getbaud g s).2.training_step = s.training_step + 1 ∧
    (getbaud g s).2.in_training = true ∧
    (getbaud g s).2.current_get_bit_fake = true ∧
    (getbaud g s).2.events = s.events ∧
    (getbaud g s).2.constellation = s.constellation ∧
    (getbaud g s).2.bits_per_symbol = s.bits_per_symbol := by
  have hne : ¬ (s.training_step + 1 = V17_TRAINING_SHUTDOWN_END) := by
    simp only [V17_TRAINING_SHUTDOWN_END, V17_TRAINING_SHUTDOWN_A] at hle ⊢
    omega
  unfold getbaud
  rw [if_pos hin, if_neg (by omega : ¬ s.training_step ≤ V17_TRAINING_END)]
  dsimp only
  rw [if_neg (by omega : ¬ V17_TRAINING_SHUTDOWN_A < s.training_step + 1), if_neg hne]
  obtain ⟨n1, n2, n3⟩ := getbaudData_noEOD_frame g
    { s with training_step := s.training_step + 1 } (Or.inl hf)
  obtain ⟨-, -, -, -, -, p6, p7, -, p9, -, -⟩ := getbaudData_pipeline_frame g
    { s with training_step := s.training_step + 1 }
  obtain ⟨idx, ho⟩ := getbaudData_out g { s with training_step := s.training_step + 1 }
  exact ⟨⟨idx, ho⟩, p9, by rw [n1, hin], by rw [n2, hf], n3, p6, p7⟩

lemma getbaud_shutdown_zero (g : Nat → BitResult) (s : V17TxState)
    (hin : s.in_training = true) (hgt : V17_TRAINING_END < s.training_step)
    (hgtA : V17_TRAINING_SHUTDOWN_A < s.training_step + 1) :
    getbaud g s = (Baud.zero, { s with training_step := s.training_step + 1 }) := by
  unfold getbaud
  rw [if_pos hin, if_neg (by omega : ¬ s.training_step ≤ V17_TRAINING_END)]
  dsimp only
  rw [if_pos hgtA]

lemma getbaudSeq_length (g : Nat → BitResult) :
    ∀ n (s : V17TxState), (getbaudSeq g n s).1.length = n := by
  intro n
  induction n with
  | zero => intro s; rfl
  | succ n ih =>
    intro s
    simp only [getbaudSeq]
    simp [ih]

lemma getbaudSeq_append (g : Nat → BitResult) :
    ∀ m n (s : V17TxState),
    getbaudSeq g (m + n) s =
      ((getbaudSeq g m s).1 ++ (getbaudSeq g n (getbaudSeq g m s).2).1,
       (getbaudSeq g n (getbaudSeq g m s).2).2) := by
  intro m
  induction m with
  | zero => intro n s; simp [getbaudSeq]
  | succ m ih =>
    intro n s
    have he : m + 1 + n = (m + n) + 1 := by omega
    rw [he]
    simp only [getbaudSeq]
    rw [ih]
    simp

lemma ones_seq (g : Nat → BitResult) :
    ∀ k (s : V17TxState),
    s.in_training = true → s.current_get_bit_fake = true →
    V17_TRAINING_END < s.training_step →
    s.training_step + k ≤ V17_TRAINING_SHUTDOWN_A →
    (∀ b ∈ (getbaudSeq g k s).1, ∃ i, b = Baud.pt s.constellation i) ∧
    (getbaudSeq g k s).2.in_training = true ∧
    (getbaudSeq g k s).2.current_get_bit_fake = true ∧
    (getbaudSeq g k s).2.training_step = s.training_step + k ∧
    (getbaudSeq g k s).2.events = s.events ∧
    (getbaudSeq g k s).2.constellation = s.constellation ∧
    (getbaudSeq g k s).2.bits_per_symbol = s.bits_per_symbol := by
  intro k
  induction k with
  | zero =>
    intro s hin hf hgt hle
    exact ⟨by simp [getbaudSeq], hin, hf, by simp [getbaudSeq], rfl, rfl, rfl⟩
  | succ k ih =>
    intro s hin hf hgt hle
    obtain ⟨⟨idx, ho⟩, o2, o3, o4, o5, o6, o7⟩ :=
      getbaud_shutdown_ones g s hin hgt (by omega) hf
    obtain ⟨i1, i2, i3, i4, i5, i6, i7⟩ := ih (getbaud g s).2
      o3 o4 (by omega) (by omega)
    simp only [getbaudSeq]
    refine ⟨?_, i2, i3, by rw [i4, o2]; omega, by rw [i5, o5], by rw [i6, o6],
      by rw [i7, o7]⟩
    intro b hb
    rcases List.mem_cons.mp hb with hb | hb
    · exact ⟨idx, by rw [hb, ho]⟩
    · obtain ⟨i, hi⟩ := i1 b hb
      exact ⟨i, by rw [hi, o6]⟩

lemma zeros_seq (g : Nat → BitResult) :
    ∀ k (s : V17TxState),
    s.in_training = true →
    V17_TRAINING_END < s.training_step →
    V17_TRAINING_SHUTDOWN_A ≤ s.training_step →
    getbaudSeq g k s =
      (List.replicate k Baud.zero, { s with training_step := s.training_step + k }) := by
  intro k
  induction k with
  | zero =>
    intro s hin hgt hge
    simp only [getbaudSeq, List.replicate]
    rw [Nat.add_zero]
  | succ k ih =>
    intro s hin hgt hge
    simp only [getbaudSeq]
    rw [getbaud_shutdown_zero g s hin hgt (by omega)]
    rw [ih { s with training_step := s.training_step + 1 } hin (by dsimp only; omega)
      (by dsimp only; omega)]
    simp only [List.replicate]
    have he : s.training_step + 1 + k = s.training_step + (k + 1) := by omega
    rw [he]

/-- C3 (amended): in the data phase, at the first baud on which the active
bit source returns the end-of-data sentinel, exactly one end-of-data
notification is appended, the active source switches to the internal
always-one fallback, training mode is re-entered, and the missing bits of
that symbol are treated as 1 (the emitted symbol equals the one produced by
the same stream padded with 1s from the end-of-data position).  Counting
that symbol as the first, 32 trellis-encoded bauds are emitted — i.e.
exactly 31 all-ones filler bauds after it — followed by exactly 48 bauds of
the zero point, after which `training_step` sits at the shutdown-end
boundary and no further notification is ever appended. -/
theorem eod_shutdown_sequence (g : Nat → BitResult) (s : V17TxState) (j : Nat)
    (hin : s.in_training = false)
    (hf : s.current_get_bit_fake = false)
    (hts : s.training_step = V17_TRAINING_END + 1)
    (hj : j < s.bits_per_symbol)
    (hbefore : ∀ m, m < j → g (s.bit_index + m) ≠ BitResult.endOfData)
    (hk : g (s.bit_index + j) = BitResult.endOfData) :
    (∃ idx, (getbaud g s).1 = Baud.pt s.constellation idx) ∧
    (getbaud g s).1 = (getbaud (padOnes g (s.bit_index + j)) s).1 ∧
    (getbaud g s).2.events = s.events ++ [Event.endOfData] ∧
    (getbaud g s).2.current_get_bit_fake = true ∧
    (getbaud g s).2.in_training = true ∧
    (getbaud g s).2.training_step = s.training_step ∧
    (∀ b ∈ (getbaudSeq g 79 (getbaud g s).2).1.take 31,
      ∃ i, b = Baud.pt s.constellation i) ∧
    (getbaudSeq g 79 (getbaud g s).2).1.drop 31 = List.replicate 48 Baud.zero ∧
    (getbaudSeq g 79 (getbaud g s).2).2.events = s.events ++ [Event.endOfData] ∧
    (getbaudSeq g 79 (getbaud g s).2).2.training_step = V17_TRAINING_SHUTDOWN_END ∧
    (∀ n, (getbaudSeq g n ((getbaudSeq g 79 (getbaud g s).2).2)).2.events =
        s.events ++ [Event.endOfData]) := by
  obtain ⟨hpt, e2, e3, e4, e5, e6, e7, -⟩ := getbaud_eod g s j hin hf hj hbefore hk
  have hpad := getbaud_pad g s j hin hf hbefore hk
  obtain ⟨z1, z2, z3, z4, z5, z6, z7⟩ := ones_seq g 31 (getbaud g s).2 e4 e3
    (by rw [e5, hts]; omega)
    (by rw [e5, hts]; simp only [V17_TRAINING_SHUTDOWN_A]; omega)
  have hzero := zeros_seq g 48 (getbaudSeq g 31 (getbaud g s).2).2 z2
    (by rw [z4, e5, hts]; omega)
    (by rw [z4, e5, hts]; simp only [V17_TRAINING_SHUTDOWN_A]; omega)
  have hlen31 : (getbaudSeq g 31 (getbaud g s).2).1.length = 31 := getbaudSeq_length g 31 _
  have h79 : getbaudSeq g 79 (getbaud g s).2 =
      ((getbaudSeq g 31 (getbaud g s).2).1 ++
        (getbaudSeq g 48 (getbaudSeq g 31 (getbaud g s).2).2).1,
       (getbaudSeq g 48 (getbaudSeq g 31 (getbaud g s).2).2).2) := by
    rw [(by norm_num : (79 : Nat) = 31 + 48), getbaudSeq_append]
  have hfinal_step :
      (getbaudSeq g 79 (getbaud g s).2).2.training_step = V17_TRAINING_SHUTDOWN_END := by
    rw [h79]
    dsimp only
    rw [hzero]
    dsimp only
    rw [z4, e5, hts]
    simp only [V17_TRAINING_SHUTDOWN_END, V17_TRAINING_SHUTDOWN_A]
    try omega
  have hfinal_events :
      (getbaudSeq g 79 (getbaud g s).2).2.events = s.events ++ [Event.endOfData] := by
    rw [h79]
    dsimp only
    rw [hzero]
    dsimp only
    rw [z5]
    exact e2
  have hfinal_train : (getbaudSeq g 79 (getbaud g s).2).2.in_training = true := by
    rw [h79]
    dsimp only
    rw [hzero]
    dsimp only
    rw [z2]
  refine ⟨hpt, hpad, e2, e3, e4, e5, ?_, ?_, hfinal_events, hfinal_step, ?_⟩
  · intro b hb
    rw [h79] at hb
    dsimp only at hb
    rw [List.take_left' hlen31] at hb
    obtain ⟨i, hi⟩ := z1 b hb
    exact ⟨i, by rw [hi, e6]⟩
  · rw [h79]
    dsimp only
    rw [List.drop_left' hlen31, hzero]
  · intro n
    have hgt : V17_TRAINING_END < (getbaudSeq g 79 (getbaud g s).2).2.training_step := by
      rw [hfinal_step]
      simp only [V17_TRAINING_SHUTDOWN_END, V17_TRAINING_SHUTDOWN_A]
      omega
    have hge : V17_TRAINING_SHUTDOWN_A ≤ (getbaudSeq g 79 (getbaud g s).2).2.training_step := by
      rw [hfinal_step]
      simp only [V17_TRAINING_SHUTDOWN_END]
      omega
    rw [zeros_seq g n _ hfinal_train hgt hge]
    dsimp only
    exact hfinal_events

set_option maxRecDepth 20000 in
/-- C3 (counterexample to the claim as stated): after the end-of-data baud,
only 31 — not 32 — trellis-encoded all-ones filler bauds follow; the 32nd
baud after the end-of-data symbol is already the zero point (the first 31
bauds are constellation points). -/
theorem eod_filler_count_counterexample :
    ((getbaudSeq gEOD 32 (getbaud gEOD sData).2).1.drop 31 = [Baud.zero]) ∧
    ((getbaudSeq gEOD 32 (getbaud gEOD sData).2).1.take 31).all
      (fun b => match b with | Baud.pt _ _ => true | _ => false) = true :=
  ⟨by decide, by decide⟩

set_option maxRecDepth 20000 in
/-- Witness for `eod_shutdown_sequence` at a concrete data-phase state with a
source that signals end-of-data at the first bit of the symbol. -/
theorem eod_shutdown_sequence_witness :
    (∃ idx, (getbaud gEOD sData).1 = Baud.pt sData.constellation idx) ∧
    (getbaud gEOD sData).1 = (getbaud (padOnes gEOD (sData.bit_index + 0)) sData).1 ∧
    (getbaud gEOD sData).2.events = sData.events ++ [Event.endOfData] ∧
    (getbaud gEOD sData).2.current_get_bit_fake = true ∧
    (getbaud gEOD sData).2.in_training = true ∧
    (getbaud gEOD sData).2.training_step = sData.training_step ∧
    (∀ b ∈ (getbaudSeq gEOD 79 (getbaud gEOD sData).2).1.take 31,
      ∃ i, b = Baud.pt sData.constellation i) ∧
    (getbaudSeq gEOD 79 (getbaud gEOD sData).2).1.drop 31 = List.replicate 48 Baud.zero ∧
    (getbaudSeq gEOD 79 (getbaud gEOD sData).2).2.events =
      sData.events ++ [Event.endOfData] ∧
    (getbaudSeq gEOD 79 (getbaud gEOD sData).2).2.training_step =
      V17_TRAINING_SHUTDOWN_END ∧
    (∀ n, (getbaudSeq gEOD n ((getbaudSeq gEOD 79 (getbaud gEOD sData).2).2)).2.events =
        sData.events ++ [Event.endOfData]) :=
  eod_shutdown_sequence gEOD sData 0 rfl rfl rfl (by decide)
    (fun m hm => absurd hm (Nat.not_lt_zero m)) rfl
